import Mathlib

/-!
# Speed Daemon (protohackers p06) — verification of the core registries

A shallow embedding of `src/rust/p06-speed-daemon/src/lib.rs`:

* the dispatcher registry (`Dispatchers`: `add_dispatcher`, `remove_dispatcher`,
  `send_tickets`, `send_pending_tickets`),
* the camera registry (`CameraGuard::new` / `CameraGuard::drop` over the
  `HashMap<u16, (u16, usize)>` of per-road `(limit, refcount)` entries),
* the per-connection session machine (`handle_client`, `handle_camera`,
  `handle_dispatcher`) together with the `Heartbeat` timer state.

Machine integers (`u16`, `u32`, `u64`, `usize`) are modelled as `Nat`, with an
explicit `% 2^32` at the one site where the Rust code multiplies in `u32`
(`handle_client`'s `u64::from(i * 100)`).  Channel sends are modelled as an
output log: `sender.send(ticket)` on the sink with identifier `k` appends
`(k, ticket)` to the log.  Timer firings are modelled as explicit `tick`
events; a `tick` produces a `Heartbeat` output exactly when the select branch
guard `heartbeat.is_valid()` holds, mirroring the `tokio::select!` loops.
-/

/-- A ticket, as produced by the controller and routed by the dispatcher
registry.  Modelled from the spec: `controller::Ticket` is declared in
`src/controller.rs`, which is not part of the sources; the spec's Ticket record
is `(plate, road, mile1, timestamp1, mile2, timestamp2, speed_x100)`, and
`lib.rs` accesses the `road` field (`ticket.road`), the only field the registry
inspects. -/
structure Ticket where
  plate : String
  road : Nat
  mile1 : Nat
  timestamp1 : Nat
  mile2 : Nat
  timestamp2 : Nat
  speed : Nat
deriving DecidableEq, Repr

/-- One entry of `Dispatchers.dispatchers`: the Rust triple
`(usize, HashSet<u16>, mpsc::UnboundedSender<controller::Ticket>)`.
The road set is modelled as a list queried only through `contains`; the sender
is modelled by the identifier `sink` of its output log. -/
structure DispatcherEntry where
  id : Nat
  roads : List Nat
  sink : Nat
deriving DecidableEq, Repr

/-- The registry state: struct `Dispatchers` of `lib.rs`. -/
structure Dispatchers where
  dispatchers : List DispatcherEntry
  pending_tickets : List Ticket
deriving DecidableEq, Repr

namespace Dispatchers

/-- The body of the `for ticket in self.pending_tickets.drain(..)` loop in
`send_pending_tickets`: the accumulator carries the rebuilt local
`pending_tickets` vector and the log of `sender.send(ticket)` calls. -/
def drainStep (ds : List DispatcherEntry) (acc : List Ticket × List (Nat × Ticket))
    (t : Ticket) : List Ticket × List (Nat × Ticket) :=
  match ds.find? (fun d => d.roads.contains t.road) with
  | some d => (acc.1, acc.2 ++ [(d.sink, t)])
  | none => (acc.1 ++ [t], acc.2)

/-- Rust `Dispatchers::send_pending_tickets`: drain the pending queue, sending each
ticket to the first registered dispatcher covering its road and keeping the
rest; returns the new state and the log of sends. -/
def send_pending_tickets (s : Dispatchers) : Dispatchers × List (Nat × Ticket) :=
  let r := s.pending_tickets.foldl (drainStep s.dispatchers) ([], [])
  ({ s with pending_tickets := r.1 }, r.2)

/-- Rust `Dispatchers::add_dispatcher`: push the new triple, then drain. -/
def add_dispatcher (s : Dispatchers) (id : Nat) (roads : List Nat) (sink : Nat) :
    Dispatchers × List (Nat × Ticket) :=
  send_pending_tickets { s with dispatchers := s.dispatchers ++ [⟨id, roads, sink⟩] }

/-- Rust `Dispatchers::remove_dispatcher`: `retain(|(id, _, _)| *id != removed_id)`. -/
def remove_dispatcher (s : Dispatchers) (removed_id : Nat) : Dispatchers :=
  { s with dispatchers := s.dispatchers.filter (fun d => d.id ≠ removed_id) }

/-- Rust `Dispatchers::send_tickets`: append the new tickets to the pending queue,
then drain. -/
def send_tickets (s : Dispatchers) (tickets : List Ticket) :
    Dispatchers × List (Nat × Ticket) :=
  send_pending_tickets { s with pending_tickets := s.pending_tickets ++ tickets }

/-- The guard of the `find_map` in `send_pending_tickets`: is some currently
registered dispatcher's road set covering `road`? -/
def covers (ds : List DispatcherEntry) (road : Nat) : Bool :=
  (ds.find? (fun d => d.roads.contains road)).isSome

/-- The send (if any) that the drain loop performs for one ticket. -/
def sendOf (ds : List DispatcherEntry) (t : Ticket) : Option (Nat × Ticket) :=
  (ds.find? (fun d => d.roads.contains t.road)).map (fun d => (d.sink, t))

/-- The registry operations arriving on the central actor's channel
(`ControllerMessage`), as dispatched by the `run` loop. -/
inductive Op where
  | addDispatcher (id : Nat) (roads : List Nat) (sink : Nat)
  | removeDispatcher (id : Nat)
  | sendTickets (tickets : List Ticket)
deriving DecidableEq, Repr

/-- One central-actor step: the `match message` in `run`. -/
def applyOp (s : Dispatchers) : Op → Dispatchers × List (Nat × Ticket)
  | .addDispatcher id roads sink => s.add_dispatcher id roads sink
  | .removeDispatcher id => (s.remove_dispatcher id, [])
  | .sendTickets ts => s.send_tickets ts

/-- Run a sequence of registry operations, concatenating the send logs. -/
def runOps (s : Dispatchers) : List Op → Dispatchers × List (Nat × Ticket)
  | [] => (s, [])
  | op :: ops =>
    let r := s.applyOp op
    let r2 := r.1.runOps ops
    (r2.1, r.2 ++ r2.2)

/-- How many copies of ticket `t` a sequence of operations hands to the
registry through `send_tickets`. -/
def inputCount : List Op → Ticket → Nat
  | [], _ => 0
  | .sendTickets ts :: ops, t => ts.count t + inputCount ops t
  | _ :: ops, t => inputCount ops t

/-! ## Characterisation of the drain loop -/

theorem drain_foldl (ds : List DispatcherEntry) (ts : List Ticket)
    (p : List Ticket) (q : List (Nat × Ticket)) :
    ts.foldl (drainStep ds) (p, q)
      = (p ++ ts.filter (fun t => !covers ds t.road), q ++ ts.filterMap (sendOf ds)) := by
  induction ts generalizing p q with
  | nil => simp
  | cons t ts ih =>
    cases h : ds.find? (fun d => d.roads.contains t.road) with
    | none =>
      have hc : (!covers ds t.road) = true := by
        simp only [covers, h, Option.isSome_none, Bool.not_false]
      have hs : sendOf ds t = none := by
        simp only [sendOf, h, Option.map_none']
      simp only [List.foldl_cons, drainStep, h, List.filter_cons, List.filterMap_cons,
        hc, hs, if_true]
      rw [ih]
      simp
    | some d =>
      have hc : (!covers ds t.road) = false := by
        simp only [covers, h, Option.isSome_some, Bool.not_true]
      have hs : sendOf ds t = some (d.sink, t) := by
        simp only [sendOf, h, Option.map_some']
      simp only [List.foldl_cons, drainStep, h, List.filter_cons, List.filterMap_cons,
        hc, hs, if_false, Bool.false_eq_true]
      rw [ih]
      simp

theorem send_pending_tickets_pending (s : Dispatchers) :
    (s.send_pending_tickets).1.pending_tickets
      = s.pending_tickets.filter (fun t => !covers s.dispatchers t.road) := by
  simp [send_pending_tickets, drain_foldl]

theorem send_pending_tickets_dispatchers (s : Dispatchers) :
    (s.send_pending_tickets).1.dispatchers = s.dispatchers := by
  simp [send_pending_tickets]

theorem send_pending_tickets_sends (s : Dispatchers) :
    (s.send_pending_tickets).2
      = s.pending_tickets.filterMap (sendOf s.dispatchers) := by
  simp [send_pending_tickets, drain_foldl]

/-- Lemma: `find?` returns the first element satisfying the predicate. -/
theorem find?_first {α : Type} (p : α → Bool) (l : List α) (a : α)
    (h : l.find? p = some a) :
    ∃ n, ∃ hn : n < l.length, l.get ⟨n, hn⟩ = a ∧ p a = true ∧
      ∀ m, ∀ hm : m < n, p (l.get ⟨m, hm.trans hn⟩) = false := by
  induction l with
  | nil => simp at h
  | cons x xs ih =>
    rw [List.find?_cons] at h
    by_cases hx : p x
    · simp only [hx, if_pos] at h
      injection h with h
      subst h
      exact ⟨0, by simp, rfl, hx, fun m hm => absurd hm (Nat.not_lt_zero m)⟩
    · simp only [hx] at h
      obtain ⟨n, hn, hget, hpa, hfirst⟩ := ih h
      refine ⟨n + 1, Nat.succ_lt_succ hn, hget, hpa, fun m hm => ?_⟩
      match m, hm with
      | 0, _ => simpa using hx
      | m + 1, hm => exact hfirst m (Nat.lt_of_succ_lt_succ hm)

/-- Every send performed by a drain targets a registered dispatcher whose road
set covers the ticket's road. -/
theorem sends_covered (s : Dispatchers) (p : Nat × Ticket)
    (hp : p ∈ (s.send_pending_tickets).2) :
    ∃ d ∈ s.dispatchers, d.sink = p.1 ∧ p.2.road ∈ d.roads := by
  rw [send_pending_tickets_sends] at hp
  obtain ⟨u, _hu, hsend⟩ := List.mem_filterMap.mp hp
  unfold sendOf at hsend
  cases hfind : s.dispatchers.find? (fun d => d.roads.contains u.road) with
  | none => rw [hfind] at hsend; simp at hsend
  | some d =>
    rw [hfind] at hsend
    simp only [Option.map_some'] at hsend
    injection hsend with hsend
    subst hsend
    refine ⟨d, List.mem_of_find?_eq_some hfind, rfl, ?_⟩
    have := List.find?_some hfind
    simpa using this

/-- Count conservation for one drain: each pending ticket is either sent or
kept, never both, never duplicated. -/
theorem count_drain (ds : List DispatcherEntry) (ts : List Ticket) (t : Ticket) :
    ((ts.filterMap (sendOf ds)).map Prod.snd).count t
      + (ts.filter (fun u => !covers ds u.road)).count t = ts.count t := by
  induction ts with
  | nil => simp
  | cons u ts ih =>
    cases h : ds.find? (fun d => d.roads.contains u.road) with
    | none =>
      have hc : (!covers ds u.road) = true := by
        simp only [covers, h, Option.isSome_none, Bool.not_false]
      have hs : sendOf ds u = none := by
        simp only [sendOf, h, Option.map_none']
      simp only [List.filterMap_cons, List.filter_cons, hs, hc, if_true,
        List.count_cons]
      omega
    | some d =>
      have hc : (!covers ds u.road) = false := by
        simp only [covers, h, Option.isSome_some, Bool.not_true]
      have hs : sendOf ds u = some (d.sink, u) := by
        simp only [sendOf, h, Option.map_some']
      simp only [List.filterMap_cons, List.filter_cons, hs, hc, Bool.false_eq_true,
        if_false, List.map_cons, List.count_cons]
      omega

theorem send_pending_tickets_count (s : Dispatchers) (t : Ticket) :
    ((s.send_pending_tickets).2.map Prod.snd).count t
      + (s.send_pending_tickets).1.pending_tickets.count t
      = s.pending_tickets.count t := by
  rw [send_pending_tickets_sends, send_pending_tickets_pending]
  exact count_drain s.dispatchers s.pending_tickets t

/-- The per-operation ticket count delivered through `send_tickets`. -/
def opInput : Op → Ticket → Nat
  | .sendTickets ts, t => ts.count t
  | _, _ => 0

theorem applyOp_count (s : Dispatchers) (op : Op) (t : Ticket) :
    ((s.applyOp op).2.map Prod.snd).count t
      + (s.applyOp op).1.pending_tickets.count t
      = s.pending_tickets.count t + opInput op t := by
  cases op with
  | addDispatcher id roads sink =>
    simpa [applyOp, add_dispatcher, opInput] using
      send_pending_tickets_count { s with dispatchers := s.dispatchers ++ [⟨id, roads, sink⟩] } t
  | removeDispatcher id => simp [applyOp, remove_dispatcher, opInput]
  | sendTickets ts =>
    have := send_pending_tickets_count { s with pending_tickets := s.pending_tickets ++ ts } t
    simp only [List.count_append] at this
    simpa [applyOp, send_tickets, opInput] using this

theorem inputCount_cons (op : Op) (ops : List Op) (t : Ticket) :
    inputCount (op :: ops) t = opInput op t + inputCount ops t := by
  cases op <;> simp [inputCount, opInput]

/-- Count conservation across an arbitrary run of registry operations. -/
theorem runOps_count (s : Dispatchers) (ops : List Op) (t : Ticket) :
    ((s.runOps ops).2.map Prod.snd).count t
      + (s.runOps ops).1.pending_tickets.count t
      = s.pending_tickets.count t + inputCount ops t := by
  induction ops generalizing s with
  | nil => simp [runOps, inputCount]
  | cons op ops ih =>
    have h1 := applyOp_count s op t
    have h2 := ih (s.applyOp op).1
    simp only [runOps, List.map_append, List.count_append, inputCount_cons]
    omega

end Dispatchers

/-! ## Concrete registry examples (used by the witnesses) -/

/-- A ticket for road 5. -/
def exT5 : Ticket := ⟨"UN1X", 5, 8, 0, 9, 45, 8000⟩

/-- A ticket for road 7. -/
def exT7 : Ticket := ⟨"RE05BKG", 7, 100, 0, 110, 360, 10000⟩

/-- A dispatcher covering road 5 only. -/
def exD5 : DispatcherEntry := ⟨0, [5], 10⟩

/-- A registry with one dispatcher for road 5 and a pending ticket for road 7. -/
def exS : Dispatchers := ⟨[exD5], [exT7]⟩

/-- A registry with two dispatchers both covering road 5. -/
def exS9 : Dispatchers := ⟨[⟨0, [5], 10⟩, ⟨1, [5], 11⟩], [exT5]⟩

/-- An operation sequence handing in one ticket, then registering a matching
dispatcher. -/
def exOps : List Dispatchers.Op := [.sendTickets [exT5], .addDispatcher 1 [5] 11]

namespace Dispatchers

/-- C1: a routed ticket whose road no registered dispatcher covers is appended
to the pending queue and stays there in FIFO order; registering a dispatcher
drains exactly the pending tickets whose road some currently-registered
dispatcher covers, pushing each to such a dispatcher's sink, and keeps all the
others (in order). -/
theorem ticket_routing_buffers_and_drains (s : Dispatchers) (t : Ticket)
    (id : Nat) (roads : List Nat) (sink : Nat) :
    (covers s.dispatchers t.road = false →
      (s.send_tickets [t]).1.pending_tickets
        = s.pending_tickets.filter (fun u => !covers s.dispatchers u.road) ++ [t])
    ∧ (s.add_dispatcher id roads sink).1.pending_tickets
        = s.pending_tickets.filter
            (fun u => !covers (s.dispatchers ++ [⟨id, roads, sink⟩]) u.road)
    ∧ ∀ u ∈ s.pending_tickets,
        covers (s.dispatchers ++ [⟨id, roads, sink⟩]) u.road = true →
        ∃ d ∈ s.dispatchers ++ [⟨id, roads, sink⟩],
          u.road ∈ d.roads ∧ (d.sink, u) ∈ (s.add_dispatcher id roads sink).2 := by
  refine ⟨fun h => ?_, ?_, fun u hu hcov => ?_⟩
  · have := send_pending_tickets_pending
      { s with pending_tickets := s.pending_tickets ++ [t] }
    simp only [send_tickets]
    rw [this]
    simp [List.filter_append, h]
  · exact send_pending_tickets_pending
      { s with dispatchers := s.dispatchers ++ [⟨id, roads, sink⟩] }
  · obtain ⟨d, hfind⟩ := Option.isSome_iff_exists.mp hcov
    refine ⟨d, List.mem_of_find?_eq_some hfind, ?_, ?_⟩
    · simpa using List.find?_some hfind
    · have hsends := send_pending_tickets_sends
        { s with dispatchers := s.dispatchers ++ [⟨id, roads, sink⟩] }
      simp only [add_dispatcher]
      rw [hsends]
      exact List.mem_filterMap.mpr ⟨u, hu, by simp only [sendOf, hfind, Option.map_some']⟩

theorem ticket_routing_buffers_and_drains_witness :
    (covers exS.dispatchers exT7.road = false
      ∧ (exS.send_tickets [exT7]).1.pending_tickets
          = exS.pending_tickets.filter (fun u => !covers exS.dispatchers u.road) ++ [exT7])
    ∧ (exT7 ∈ exS.pending_tickets ∧ covers (exS.dispatchers ++ [⟨1, [7], 11⟩]) exT7.road = true
      ∧ ∃ d ∈ exS.dispatchers ++ [⟨1, [7], 11⟩],
          exT7.road ∈ d.roads ∧ (d.sink, exT7) ∈ (exS.add_dispatcher 1 [7] 11).2) :=
  ⟨⟨by decide, (ticket_routing_buffers_and_drains exS exT7 1 [7] 11).1 (by decide)⟩,
   ⟨by decide, by decide,
    (ticket_routing_buffers_and_drains exS exT7 1 [7] 11).2.2 exT7 (by decide) (by decide)⟩⟩

/-- C2: at-most-once delivery — each drain sends each pending-ticket instance
to at most one sink (count conservation), count conservation holds across any
operation sequence, and a ticket handed in at most once is pushed to a sink at
most once. -/
theorem ticket_delivered_at_most_once (s : Dispatchers) (ops : List Op) (t : Ticket) :
    (((s.send_pending_tickets).2.map Prod.snd).count t
       + (s.send_pending_tickets).1.pending_tickets.count t
       = s.pending_tickets.count t)
    ∧ (((s.runOps ops).2.map Prod.snd).count t
       + (s.runOps ops).1.pending_tickets.count t
       = s.pending_tickets.count t + inputCount ops t)
    ∧ (s.pending_tickets.count t + inputCount ops t ≤ 1 →
       ((s.runOps ops).2.map Prod.snd).count t ≤ 1) := by
  refine ⟨send_pending_tickets_count s t, runOps_count s ops t, fun h => ?_⟩
  have := runOps_count s ops t
  omega

theorem ticket_delivered_at_most_once_witness :
    (Dispatchers.mk [] []).pending_tickets.count exT5 + inputCount exOps exT5 ≤ 1
    ∧ (((Dispatchers.mk [] []).runOps exOps).2.map Prod.snd).count exT5 ≤ 1 :=
  ⟨by decide, (ticket_delivered_at_most_once ⟨[], []⟩ exOps exT5).2.2 (by decide)⟩

/-- C3: every ticket pushed onto a dispatcher sink by any registry operation
has its road in that dispatcher's registered road set at the moment of the
push. -/
theorem delivered_ticket_road_covered (s : Dispatchers) (op : Op) (p : Nat × Ticket)
    (hp : p ∈ (s.applyOp op).2) :
    ∃ d ∈ (s.applyOp op).1.dispatchers, d.sink = p.1 ∧ p.2.road ∈ d.roads := by
  cases op with
  | addDispatcher id roads sink =>
    have h := sends_covered { s with dispatchers := s.dispatchers ++ [⟨id, roads, sink⟩] } p hp
    simpa [applyOp, add_dispatcher, send_pending_tickets_dispatchers] using h
  | removeDispatcher id => simp [applyOp] at hp
  | sendTickets ts =>
    have h := sends_covered { s with pending_tickets := s.pending_tickets ++ ts } p hp
    simpa [applyOp, send_tickets, send_pending_tickets_dispatchers] using h

theorem delivered_ticket_road_covered_witness :
    ((10, exT5) ∈ ((Dispatchers.mk [exD5] []).applyOp (.sendTickets [exT5])).2)
    ∧ ∃ d ∈ ((Dispatchers.mk [exD5] []).applyOp (.sendTickets [exT5])).1.dispatchers,
        d.sink = (10, exT5).1 ∧ (10, exT5).2.road ∈ d.roads :=
  ⟨by decide,
   delivered_ticket_road_covered ⟨[exD5], []⟩ (.sendTickets [exT5]) (10, exT5) (by decide)⟩

/-- C9: deterministic first-registered tie-break — `add_dispatcher` appends in
registration order, `remove_dispatcher` preserves the relative order of the
remaining dispatchers, and each drained ticket goes to the earliest-registered
dispatcher whose road set covers it. -/
theorem tiebreak_first_registered (s : Dispatchers) (id : Nat) (roads : List Nat)
    (sink : Nat) (rid : Nat) :
    ((s.add_dispatcher id roads sink).1.dispatchers = s.dispatchers ++ [⟨id, roads, sink⟩])
    ∧ (s.remove_dispatcher rid).dispatchers.Sublist s.dispatchers
    ∧ ∀ p ∈ (s.send_pending_tickets).2, ∃ n, ∃ hn : n < s.dispatchers.length,
        (s.dispatchers.get ⟨n, hn⟩).sink = p.1
        ∧ p.2.road ∈ (s.dispatchers.get ⟨n, hn⟩).roads
        ∧ ∀ m, ∀ hm : m < n, p.2.road ∉ (s.dispatchers.get ⟨m, hm.trans hn⟩).roads := by
  refine ⟨?_, ?_, fun p hp => ?_⟩
  · exact send_pending_tickets_dispatchers
      { s with dispatchers := s.dispatchers ++ [⟨id, roads, sink⟩] }
  · exact List.filter_sublist _
  · rw [send_pending_tickets_sends] at hp
    obtain ⟨u, _hu, hsend⟩ := List.mem_filterMap.mp hp
    unfold sendOf at hsend
    cases hfind : s.dispatchers.find? (fun d => d.roads.contains u.road) with
    | none => rw [hfind] at hsend; simp at hsend
    | some d =>
      rw [hfind] at hsend
      simp only [Option.map_some'] at hsend
      injection hsend with hsend
      subst hsend
      obtain ⟨n, hn, hget, hpa, hfirst⟩ := find?_first _ _ _ hfind
      refine ⟨n, hn, by rw [hget], by rw [hget]; simpa using hpa, fun m hm => ?_⟩
      have := hfirst m hm
      simpa using this

theorem tiebreak_first_registered_witness :
    ((10, exT5) ∈ (exS9.send_pending_tickets).2)
    ∧ ∃ n, ∃ hn : n < exS9.dispatchers.length,
        (exS9.dispatchers.get ⟨n, hn⟩).sink = (10, exT5).1
        ∧ (10, exT5).2.road ∈ (exS9.dispatchers.get ⟨n, hn⟩).roads
        ∧ ∀ m, ∀ hm : m < n, (10, exT5).2.road ∉ (exS9.dispatchers.get ⟨m, hm.trans hn⟩).roads :=
  ⟨by decide, (tiebreak_first_registered exS9 2 [] 12 3).2.2 (10, exT5) (by decide)⟩

end Dispatchers

/-! ## Camera registry: `Cameras = HashMap<u16, (u16, usize)>` as an
association list of `(road, (limit, refcount))` entries -/

/-- The camera registry map: for each road, its declared limit and the number
of live camera connections on it. -/
abbrev CamerasMap := List (Nat × Nat × Nat)

/-- Rust `cameras.get(&road)` / the `entry` lookup: first entry with this key. -/
def lookupRoad (m : CamerasMap) (road : Nat) : Option (Nat × Nat) :=
  (m.find? (fun e => e.1 == road)).map (fun e => e.2)

/-- Update the entry for `road` in place, or append it when absent. -/
def setRoad : CamerasMap → Nat → Nat × Nat → CamerasMap
  | [], road, v => [(road, v)]
  | e :: rest, road, v =>
    if e.1 = road then (road, v) :: rest else e :: setRoad rest road v

/-- Rust `cameras.remove(&road)`: drop the entry with this key. -/
def eraseRoad : CamerasMap → Nat → CamerasMap
  | [], _ => []
  | e :: rest, road => if e.1 = road then rest else e :: eraseRoad rest road

/-- Rust `CameraGuard::new`: `entry(road).or_insert((limit, 0))`, reject when
the stored limit differs, otherwise increment the refcount. -/
def cameraGuardNew (m : CamerasMap) (road limit : Nat) : Except String CamerasMap :=
  match lookupRoad m road with
  | some (l, c) =>
    if l ≠ limit then .error "limit conflict" else .ok (setRoad m road (l, c + 1))
  | none =>
    -- `or_insert((limit, 0))` then `*c += 1`: the freshly inserted limit
    -- always matches, so the entry ends at `(limit, 1)`.
    .ok (setRoad m road (limit, 1))

/-- Rust `CameraGuard::drop`: decrement the road's refcount, removing the
entry when it reaches zero. -/
def cameraGuardDrop (m : CamerasMap) (road : Nat) : CamerasMap :=
  match lookupRoad m road with
  | some (l, c) =>
    if c - 1 = 0 then eraseRoad m road else setRoad m road (l, c - 1)
  | none => m

theorem lookupRoad_nil (road : Nat) : lookupRoad [] road = none := rfl

theorem lookupRoad_setRoad (m : CamerasMap) (road : Nat) (v : Nat × Nat) (r : Nat) :
    lookupRoad (setRoad m road v) r = if r = road then some v else lookupRoad m r := by
  induction m with
  | nil =>
    by_cases h : r = road
    · subst h; simp [setRoad, lookupRoad, List.find?]
    · have hb : (road == r) = false := by
        simp only [beq_eq_false_iff_ne, ne_eq]
        exact fun hh => h hh.symm
      simp [setRoad, lookupRoad, List.find?, hb, h]
  | cons e rest ih =>
    by_cases he : e.1 = road
    · rw [show setRoad (e :: rest) road v = (road, v) :: rest by simp [setRoad, he]]
      by_cases h : r = road
      · subst h; simp [lookupRoad, List.find?_cons]
      · have hb : (road == r) = false := by
          simp only [beq_eq_false_iff_ne, ne_eq]
          exact fun hh => h hh.symm
        have hb2 : (e.1 == r) = false := by rw [he]; exact hb
        simp [lookupRoad, List.find?_cons, hb, hb2, h]
    · rw [show setRoad (e :: rest) road v = e :: setRoad rest road v by
        simp [setRoad, he]]
      by_cases hr : e.1 = r
      · have h : ¬ r = road := by rw [← hr]; exact fun hh => he hh
        have hb : (e.1 == r) = true := by simp [hr]
        simp [lookupRoad, List.find?_cons, hb, h]
      · have hb : (e.1 == r) = false := by simp [hr]
        simp only [lookupRoad, List.find?_cons, hb, Bool.false_eq_true, if_false] at ih ⊢
        exact ih

theorem lookupRoad_eraseRoad_ne (m : CamerasMap) (road r : Nat) (hne : r ≠ road) :
    lookupRoad (eraseRoad m road) r = lookupRoad m r := by
  induction m with
  | nil => simp [eraseRoad]
  | cons e rest ih =>
    by_cases he : e.1 = road
    · rw [show eraseRoad (e :: rest) road = rest by simp [eraseRoad, he]]
      have hb : (e.1 == r) = false := by
        rw [he]
        simp only [beq_eq_false_iff_ne, ne_eq]
        exact fun hh => hne hh.symm
      simp [lookupRoad, List.find?_cons, hb]
    · rw [show eraseRoad (e :: rest) road = e :: eraseRoad rest road by
        simp [eraseRoad, he]]
      by_cases hr : e.1 = r
      · have hb : (e.1 == r) = true := by simp [hr]
        simp [lookupRoad, List.find?_cons, hb]
      · have hb : (e.1 == r) = false := by simp [hr]
        simp only [lookupRoad, List.find?_cons, hb, Bool.false_eq_true, if_false] at ih ⊢
        exact ih

theorem lookupRoad_none_iff (m : CamerasMap) (road : Nat) :
    lookupRoad m road = none ↔ ∀ e ∈ m, e.1 ≠ road := by
  simp [lookupRoad, Option.map_eq_none', List.find?_eq_none]

theorem lookupRoad_some_mem (m : CamerasMap) (road : Nat) (v : Nat × Nat)
    (h : lookupRoad m road = some v) : (road, v) ∈ m := by
  unfold lookupRoad at h
  cases hf : m.find? (fun e => e.1 == road) with
  | none => rw [hf] at h; simp at h
  | some e =>
    rw [hf] at h
    simp only [Option.map_some'] at h
    injection h with h
    have he : e.1 = road := by simpa using List.find?_some hf
    have := List.mem_of_find?_eq_some hf
    rw [← he, ← h]
    simpa using this

theorem setRoad_absent (m : CamerasMap) (road : Nat) (v : Nat × Nat)
    (h : lookupRoad m road = none) : setRoad m road v = m ++ [(road, v)] := by
  induction m with
  | nil => simp [setRoad]
  | cons e rest ih =>
    rw [lookupRoad_none_iff] at h
    have he : e.1 ≠ road := h e (by simp)
    have hrest : lookupRoad rest road = none := by
      rw [lookupRoad_none_iff]
      exact fun x hx => h x (List.mem_cons_of_mem _ hx)
    simp [setRoad, he, ih hrest]

theorem keys_setRoad_present (m : CamerasMap) (road : Nat) (v w : Nat × Nat)
    (h : lookupRoad m road = some w) :
    (setRoad m road v).map (fun e => e.1) = m.map (fun e => e.1) := by
  induction m with
  | nil => simp [lookupRoad] at h
  | cons e rest ih =>
    by_cases he : e.1 = road
    · simp [setRoad, he]
    · have hf : (e.1 == road) = false := by simp [he]
      have hrest : lookupRoad rest road = some w := by
        unfold lookupRoad at h ⊢
        rwa [List.find?_cons, hf] at h
      simp [setRoad, he, ih hrest]

theorem keys_eraseRoad_sublist (m : CamerasMap) (road : Nat) :
    ((eraseRoad m road).map (fun e => e.1)).Sublist (m.map (fun e => e.1)) := by
  induction m with
  | nil => simp [eraseRoad]
  | cons e rest ih =>
    by_cases he : e.1 = road
    · simp only [eraseRoad, he, if_true, List.map_cons]
      exact List.sublist_cons_self _ _
    · simp only [eraseRoad, he, if_false, List.map_cons]
      exact ih.cons₂ _

theorem mem_setRoad_of_nodup (m : CamerasMap) (road : Nat) (v : Nat × Nat)
    (hnd : (m.map (fun e => e.1)).Nodup) (e : Nat × Nat × Nat)
    (h : e ∈ setRoad m road v) : e = (road, v) ∨ (e ∈ m ∧ e.1 ≠ road) := by
  induction m with
  | nil => simp [setRoad] at h; simp [h]
  | cons x rest ih =>
    simp only [List.map_cons, List.nodup_cons] at hnd
    by_cases hx : x.1 = road
    · rw [show setRoad (x :: rest) road v = (road, v) :: rest by simp [setRoad, hx]] at h
      rcases List.mem_cons.mp h with h | h
      · exact Or.inl h
      · refine Or.inr ⟨List.mem_cons_of_mem _ h, ?_⟩
        intro hcontra
        exact hnd.1 (hx ▸ hcontra ▸ List.mem_map_of_mem (fun e => e.1) h)
    · rw [show setRoad (x :: rest) road v = x :: setRoad rest road v by
        simp [setRoad, hx]] at h
      rcases List.mem_cons.mp h with h | h
      · exact Or.inr ⟨by simp [h], by rw [h]; exact hx⟩
      · rcases ih hnd.2 h with h | ⟨h1, h2⟩
        · exact Or.inl h
        · exact Or.inr ⟨List.mem_cons_of_mem _ h1, h2⟩

theorem mem_eraseRoad_of_nodup (m : CamerasMap) (road : Nat)
    (hnd : (m.map (fun e => e.1)).Nodup) (e : Nat × Nat × Nat)
    (h : e ∈ eraseRoad m road) : e ∈ m ∧ e.1 ≠ road := by
  induction m with
  | nil => simp [eraseRoad] at h
  | cons x rest ih =>
    simp only [List.map_cons, List.nodup_cons] at hnd
    by_cases hx : x.1 = road
    · rw [show eraseRoad (x :: rest) road = rest by simp [eraseRoad, hx]] at h
      refine ⟨List.mem_cons_of_mem _ h, fun hcontra => ?_⟩
      exact hnd.1 (hx ▸ hcontra ▸ List.mem_map_of_mem (fun e => e.1) h)
    · rw [show eraseRoad (x :: rest) road = x :: eraseRoad rest road by
        simp [eraseRoad, hx]] at h
      rcases List.mem_cons.mp h with h | h
      · exact ⟨by simp [h], by rw [h]; exact hx⟩
      · rcases ih hnd.2 h with ⟨h1, h2⟩
        exact ⟨List.mem_cons_of_mem _ h1, h2⟩

/-! ## Camera guard lifecycle -/

/-- The camera registry together with the multiset of live `CameraGuard`s
(each recorded by its road). -/
structure CamState where
  cameras : CamerasMap
  live : List Nat
deriving DecidableEq, Repr

/-- Camera lifecycle events: a connection registering through
`CameraGuard::new` and a live guard being dropped. -/
inductive CamOp where
  | reg (road limit : Nat)
  | unreg (road : Nat)
deriving DecidableEq, Repr

/-- Apply one lifecycle event: a successful `CameraGuard::new` adds a live
guard, a failed one changes nothing; `drop` of a live guard removes it and
decrements its road's count.  A `unreg` with no live guard on that road cannot
happen in the program (each drop corresponds to one live guard) and is a
no-op here. -/
def camApply (s : CamState) : CamOp → CamState
  | .reg road limit =>
    match cameraGuardNew s.cameras road limit with
    | .ok m => ⟨m, road :: s.live⟩
    | .error _ => s
  | .unreg road =>
    if road ∈ s.live then ⟨cameraGuardDrop s.cameras road, s.live.erase road⟩ else s

/-- The registry consistency invariant: road keys are distinct, each entry's
refcount equals the number of live guards on that road and is positive, and
every live guard's road is present in the map. -/
abbrev camInv (s : CamState) : Prop :=
  (s.cameras.map (fun e => e.1)).Nodup
  ∧ (∀ e ∈ s.cameras, e.2.2 = s.live.count e.1 ∧ 0 < e.2.2)
  ∧ (∀ road ∈ s.live, (lookupRoad s.cameras road).isSome = true)

theorem lookupRoad_isSome_of_mem_live (s : CamState) (h : camInv s) (road : Nat)
    (hr : road ∈ s.live) : ∃ l c, lookupRoad s.cameras road = some (l, c) ∧ 1 ≤ c := by
  obtain ⟨v, hv⟩ := Option.isSome_iff_exists.mp (h.2.2 road hr)
  obtain ⟨l, c⟩ := v
  have hmem := lookupRoad_some_mem _ _ _ hv
  have := (h.2.1 _ hmem).2
  exact ⟨l, c, hv, by simpa using this⟩

theorem count_eq_zero_of_lookup_none (s : CamState) (h : camInv s) (road : Nat)
    (hl : lookupRoad s.cameras road = none) : s.live.count road = 0 := by
  rw [List.count_eq_zero]
  intro hmem
  have := h.2.2 road hmem
  rw [hl] at this
  simp at this

theorem camInv_empty : camInv ⟨[], []⟩ := by
  refine ⟨List.nodup_nil, ?_, ?_⟩ <;> intro e he <;> simp at he

theorem camInv_step (s : CamState) (op : CamOp) (h : camInv s) :
    camInv (camApply s op) := by
  obtain ⟨hnd, hcount, hlive⟩ := h
  cases op with
  | reg road limit =>
    cases hl : lookupRoad s.cameras road with
    | none =>
      have hnew : cameraGuardNew s.cameras road limit
          = .ok (setRoad s.cameras road (limit, 1)) := by
        simp [cameraGuardNew, hl]
      have happ : setRoad s.cameras road (limit, 1) = s.cameras ++ [(road, limit, 1)] :=
        setRoad_absent _ _ _ hl
      have hnotkey : ∀ e ∈ s.cameras, e.1 ≠ road := (lookupRoad_none_iff _ _).mp hl
      have hnotlive : s.live.count road = 0 :=
        count_eq_zero_of_lookup_none ⟨s.cameras, s.live⟩ ⟨hnd, hcount, hlive⟩ road hl
      simp only [camApply, hnew]
      refine ⟨?_, ?_, ?_⟩
      · rw [happ]
        simp only [List.map_append, List.map_cons, List.map_nil]
        rw [List.nodup_append]
        refine ⟨hnd, List.nodup_singleton _, ?_⟩
        intro a ha hb
        simp only [List.mem_singleton] at hb
        subst hb
        obtain ⟨e, he, he1⟩ := List.mem_map.mp ha
        exact hnotkey e he he1
      · intro e he
        rw [happ] at he
        rcases List.mem_append.mp he with he | he
        · have hne : e.1 ≠ road := hnotkey e he
          have hold := hcount e he
          simp only [List.count_cons]
          have hb : (road == e.1) = false := by
            simp only [beq_eq_false_iff_ne, ne_eq]
            exact fun hh => hne hh.symm
          simp only [hb, Bool.false_eq_true, if_false]
          exact ⟨by omega, hold.2⟩
        · simp only [List.mem_singleton] at he
          subst he
          simp only [List.count_cons]
          simp [hnotlive]
      · intro r hr
        rw [lookupRoad_setRoad]
        by_cases hrr : r = road
        · simp [hrr]
        · simp only [hrr, if_false]
          rcases List.mem_cons.mp hr with hr | hr
          · exact absurd hr hrr
          · exact hlive r hr
    | some v =>
      obtain ⟨l, c⟩ := v
      by_cases hlim : l = limit
      · subst hlim
        have hnew : cameraGuardNew s.cameras road l
            = .ok (setRoad s.cameras road (l, c + 1)) := by
          simp [cameraGuardNew, hl]
        have hmem : (road, l, c) ∈ s.cameras := lookupRoad_some_mem _ _ _ hl
        have hcc := hcount _ hmem
        simp at hcc
        simp only [camApply, hnew]
        refine ⟨?_, ?_, ?_⟩
        · rw [keys_setRoad_present _ _ _ _ hl]
          exact hnd
        · intro e he
          rcases mem_setRoad_of_nodup _ _ _ hnd e he with he1 | ⟨he1, he2⟩
          · subst he1
            simp only [List.count_cons]
            simp only [beq_self_eq_true, if_true]
            exact ⟨by omega, by omega⟩
          · have hold := hcount e he1
            simp only [List.count_cons]
            have hb : (road == e.1) = false := by
              simp only [beq_eq_false_iff_ne, ne_eq]
              exact fun hh => he2 hh.symm
            simp only [hb, Bool.false_eq_true, if_false]
            exact ⟨by omega, hold.2⟩
        · intro r hr
          rw [lookupRoad_setRoad]
          by_cases hrr : r = road
          · simp [hrr]
          · simp only [hrr, if_false]
            rcases List.mem_cons.mp hr with hr | hr
            · exact absurd hr hrr
            · exact hlive r hr
      · have hnew : cameraGuardNew s.cameras road limit = .error "limit conflict" := by
          simp [cameraGuardNew, hl, hlim]
        simp only [camApply, hnew]
        exact ⟨hnd, hcount, hlive⟩
  | unreg road =>
    by_cases hmemlive : road ∈ s.live
    · obtain ⟨l, c, hl, hc1⟩ := lookupRoad_isSome_of_mem_live ⟨s.cameras, s.live⟩
        ⟨hnd, hcount, hlive⟩ road hmemlive
      have hmem : (road, l, c) ∈ s.cameras := lookupRoad_some_mem _ _ _ hl
      have hcc := hcount _ hmem
      simp at hcc
      have hdrop : cameraGuardDrop s.cameras road
          = if c - 1 = 0 then eraseRoad s.cameras road
            else setRoad s.cameras road (l, c - 1) := by
        simp [cameraGuardDrop, hl]
      simp only [camApply, hmemlive, if_true, hdrop]
      by_cases hc0 : c - 1 = 0
      · rw [if_pos hc0]
        refine ⟨?_, ?_, ?_⟩
        · exact List.Nodup.sublist (keys_eraseRoad_sublist _ _) hnd
        · intro e he
          obtain ⟨hem, hene⟩ := mem_eraseRoad_of_nodup _ _ hnd e he
          have hold := hcount e hem
          rw [List.count_erase_of_ne hene]
          exact hold
        · intro r hr
          have hrl : r ∈ s.live := List.mem_of_mem_erase hr
          have hrne : r ≠ road := by
            intro hrr
            subst hrr
            have h0 : (s.live.erase r).count r = 0 := by
              rw [List.count_erase_self]
              omega
            exact (List.count_eq_zero.mp h0) hr
          rw [lookupRoad_eraseRoad_ne _ _ _ hrne]
          exact hlive r hrl
      · rw [if_neg hc0]
        refine ⟨?_, ?_, ?_⟩
        · rw [keys_setRoad_present _ _ _ _ hl]
          exact hnd
        · intro e he
          rcases mem_setRoad_of_nodup _ _ _ hnd e he with he1 | ⟨he1, he2⟩
          · subst he1
            simp only [List.count_erase_self]
            exact ⟨by omega, by omega⟩
          · have hold := hcount e he1
            rw [List.count_erase_of_ne he2]
            exact hold
        · intro r hr
          have hrl : r ∈ s.live := List.mem_of_mem_erase hr
          rw [lookupRoad_setRoad]
          by_cases hrr : r = road
          · simp [hrr]
          · simp only [hrr, if_false]
            exact hlive r hrl
    · simp only [camApply, hmemlive, if_false]
      exact ⟨hnd, hcount, hlive⟩

/-- C10: every sequence of camera registrations (successful or rejected) and
deregistrations preserves the registry invariant — each mapped road's refcount
equals the number of live guards on it and is at least 1 (so no zero-count
entry lingers and the drop decrement never underflows) — and a registration
rejected for a limit conflict leaves the registry completely unchanged. -/
theorem camera_registry_consistent (s : CamState) (op : CamOp) (h : camInv s) :
    camInv ⟨[], []⟩
    ∧ camInv (camApply s op)
    ∧ (∀ road limit l c, lookupRoad s.cameras road = some (l, c) → l ≠ limit →
        camApply s (.reg road limit) = s)
    ∧ (∀ road ∈ s.live, ∃ l c, lookupRoad s.cameras road = some (l, c) ∧ 1 ≤ c) := by
  refine ⟨camInv_empty, camInv_step s op h, ?_, ?_⟩
  · intro road limit l c hl hne
    simp [camApply, cameraGuardNew, hl, hne]
  · intro road hr
    exact lookupRoad_isSome_of_mem_live s ⟨h.1, h.2.1, h.2.2⟩ road hr

theorem camera_registry_consistent_witness :
    camInv ⟨[(7, 60, 1)], [7]⟩
    ∧ camInv (camApply ⟨[(7, 60, 1)], [7]⟩ (.unreg 7))
    ∧ (lookupRoad [(7, 60, 1)] 7 = some (60, 1) ∧ (60 : Nat) ≠ 70
        ∧ camApply ⟨[(7, 60, 1)], [7]⟩ (.reg 7 70) = ⟨[(7, 60, 1)], [7]⟩)
    ∧ (7 ∈ ([7] : List Nat) ∧ ∃ l c, lookupRoad [(7, 60, 1)] 7 = some (l, c) ∧ 1 ≤ c) :=
  ⟨by decide,
   (camera_registry_consistent ⟨[(7, 60, 1)], [7]⟩ (.unreg 7) (by decide)).2.1,
   ⟨by decide, by decide,
    (camera_registry_consistent ⟨[(7, 60, 1)], [7]⟩ (.unreg 7) (by decide)).2.2.1 7 70 60 1
      (by decide) (by decide)⟩,
   ⟨by decide,
    (camera_registry_consistent ⟨[(7, 60, 1)], [7]⟩ (.unreg 7) (by decide)).2.2.2 7 (by decide)⟩⟩

/-! ## Per-connection session machine -/

/-- The `Heartbeat` struct: `period: Option<Duration>` and
`interval: Option<time::Interval>`, with durations in milliseconds.
`intervalPeriod` records `interval.map(|i| i.period())`. -/
structure HeartbeatState where
  period : Option Nat
  intervalPeriod : Option Nat
deriving DecidableEq, Repr

namespace HeartbeatState

/-- Rust `Heartbeat::set_period` (both fields are overwritten). -/
def set_period (_h : HeartbeatState) (p : Nat) : HeartbeatState :=
  { period := some p,
    intervalPeriod := if p = 0 then none else some p }

/-- Rust `Heartbeat::is_valid`: an armed interval with a nonzero period. -/
def is_valid (h : HeartbeatState) : Bool :=
  match h.intervalPeriod with
  | some p => p != 0
  | none => false

/-- Rust `Heartbeat::is_setted`: `self.period.is_some()`. -/
def is_setted (h : HeartbeatState) : Bool := h.period.isSome

/-- Rust `Heartbeat::new(None)` / `Heartbeat::default()`. -/
def new : HeartbeatState := ⟨none, none⟩

end HeartbeatState

/-- Client-to-server messages (plus a catch-all for unknown tags). -/
inductive Msg where
  | plate (plate : String) (timestamp : Nat)
  | wantHeartbeat (interval : Nat)
  | iAmCamera (road mile limit : Nat)
  | iAmDispatcher (roads : List Nat)
  | unknown (tag : Nat)
deriving DecidableEq, Repr

/-- The wire tag of a message. -/
def Msg.tag : Msg → Nat
  | .plate _ _ => 0x20
  | .wantHeartbeat _ => 0x40
  | .iAmCamera _ _ _ => 0x80
  | .iAmDispatcher _ => 0x81
  | .unknown t => t

/-- Which handler loop the connection is currently in: `handle_client`
(unidentified), `handle_camera`, or `handle_dispatcher`. -/
inductive Role where
  | unidentified
  | camera (road mile limit : Nat)
  | dispatcher (roads : List Nat)
deriving DecidableEq, Repr

/-- Per-connection session state. -/
structure Session where
  role : Role
  hb : HeartbeatState
  closed : Bool
deriving DecidableEq, Repr

/-- A freshly accepted connection: unidentified, heartbeat never set. -/
def Session.init : Session := ⟨.unidentified, HeartbeatState.new, false⟩

/-- An input to the connection task: an inbound message or a heartbeat timer
firing. -/
inductive Event where
  | msg (m : Msg)
  | tick
deriving DecidableEq, Repr

/-- The reason carried by the single `Error` message written before close. -/
inductive ErrReason where
  | invalidCamera (e : String)
  | invalidMessage (tag : Nat)
deriving DecidableEq, Repr

/-- Observable outputs of the connection task. -/
inductive Output where
  | heartbeat
  | protocolError (r : ErrReason)
  | plateToController (plate : String) (road mile limit timestamp : Nat)
deriving DecidableEq, Repr

/-- Heartbeat period in ms computed by `handle_client`:
`Duration::from_millis(u64::from(i * 100))` — the multiplication happens in
`u32` and wraps modulo `2^32` before widening. -/
def handleClientHeartbeatMs (i : Nat) : Nat := (i * 100) % 2 ^ 32

/-- Heartbeat period in ms computed by `handle_camera`:
`Duration::from_millis(u64::from(i) * 100)` — widened before multiplying. -/
def handleCameraHeartbeatMs (i : Nat) : Nat := i * 100

/-- Heartbeat period in ms computed by `handle_dispatcher` (same expression as
`handle_camera`). -/
def handleDispatcherHeartbeatMs (i : Nat) : Nat := i * 100

/-- One step of the connection task: the `tokio::select!` bodies of
`handle_client`, `handle_camera` and `handle_dispatcher`.  On a handler error
the session emits one `Error` message and closes (the `if let Err` epilogue of
`handle_client`), dropping the camera guard when one is held. -/
def stepClient (cams : CamerasMap) (s : Session) : Event → CamerasMap × Session × List Output
  | .tick =>
    if s.closed then (cams, s, [])
    else if s.hb.is_valid then (cams, s, [.heartbeat])
    else (cams, s, [])
  | .msg m =>
    if s.closed then (cams, s, [])
    else
      match s.role, m with
      | .unidentified, .iAmCamera road mile limit =>
        match cameraGuardNew cams road limit with
        | .ok cams2 => (cams2, { s with role := .camera road mile limit }, [])
        | .error e => (cams, { s with closed := true }, [.protocolError (.invalidCamera e)])
      | .unidentified, .iAmDispatcher roads =>
        (cams, { s with role := .dispatcher roads }, [])
      | .unidentified, .wantHeartbeat i =>
        if s.hb.is_setted then
          (cams, { s with closed := true }, [.protocolError (.invalidMessage 0x40)])
        else
          (cams, { s with hb := s.hb.set_period (handleClientHeartbeatMs i) }, [])
      | .unidentified, m =>
        (cams, { s with closed := true }, [.protocolError (.invalidMessage m.tag)])
      | .camera road mile limit, .plate p ts =>
        (cams, s, [.plateToController p road mile limit ts])
      | .camera road _ _, .wantHeartbeat i =>
        if s.hb.is_setted then
          (cameraGuardDrop cams road, { s with closed := true },
            [.protocolError (.invalidMessage 0x40)])
        else
          (cams, { s with hb := s.hb.set_period (handleCameraHeartbeatMs i) }, [])
      | .camera road _ _, m =>
        (cameraGuardDrop cams road, { s with closed := true },
          [.protocolError (.invalidMessage m.tag)])
      | .dispatcher _, .wantHeartbeat i =>
        if s.hb.is_setted then
          (cams, { s with closed := true }, [.protocolError (.invalidMessage 0x40)])
        else
          (cams, { s with hb := s.hb.set_period (handleDispatcherHeartbeatMs i) }, [])
      | .dispatcher _, m =>
        (cams, { s with closed := true }, [.protocolError (.invalidMessage m.tag)])

/-- Run the connection task over a sequence of events. -/
def runClient (cams : CamerasMap) (s : Session) : List Event → CamerasMap × Session × List Output
  | [] => (cams, s, [])
  | e :: es =>
    let r := stepClient cams s e
    let r2 := runClient r.1 r.2.1 es
    (r2.1, r2.2.1, r.2.2 ++ r2.2.2)

/-- Specification predicate (from the spec's legality table, for stating the
role-legality claim): the message tags that are illegal in each session state.
`WantHeartbeat` legality is stateful and treated by the single-heartbeat
claim. -/
def illegalIn (r : Role) (m : Msg) : Bool :=
  match r, m with
  | .unidentified, .plate _ _ => true
  | .unidentified, .unknown _ => true
  | .camera _ _ _, .iAmCamera _ _ _ => true
  | .camera _ _ _, .iAmDispatcher _ => true
  | .camera _ _ _, .unknown _ => true
  | .dispatcher _, .plate _ _ => true
  | .dispatcher _, .iAmCamera _ _ _ => true
  | .dispatcher _, .iAmDispatcher _ => true
  | .dispatcher _, .unknown _ => true
  | _, _ => false

/-- C5: receiving `IAmCamera` or `IAmDispatcher` once identified, `Plate`
outside the Camera state, or any unknown tag in any state, makes the server
emit exactly one Error message and close the connection. -/
theorem illegal_message_errors_and_closes (cams : CamerasMap) (s : Session) (m : Msg)
    (hopen : s.closed = false) (hill : illegalIn s.role m = true) :
    (stepClient cams s (.msg m)).2.1.closed = true
    ∧ ∃ r, (stepClient cams s (.msg m)).2.2 = [.protocolError r] := by
  obtain ⟨role, hb, closed⟩ := s
  simp only at hopen
  subst hopen
  cases role <;> cases m <;> simp_all [stepClient, illegalIn]

theorem illegal_message_errors_and_closes_witness :
    ((⟨.dispatcher [5], ⟨none, none⟩, false⟩ : Session).closed = false
      ∧ illegalIn (⟨.dispatcher [5], ⟨none, none⟩, false⟩ : Session).role
          (.iAmCamera 1 2 3) = true)
    ∧ ((stepClient [] ⟨.dispatcher [5], ⟨none, none⟩, false⟩
          (.msg (.iAmCamera 1 2 3))).2.1.closed = true
      ∧ ∃ r, (stepClient [] ⟨.dispatcher [5], ⟨none, none⟩, false⟩
          (.msg (.iAmCamera 1 2 3))).2.2 = [.protocolError r]) :=
  ⟨⟨rfl, rfl⟩,
   illegal_message_errors_and_closes [] ⟨.dispatcher [5], ⟨none, none⟩, false⟩
     (.iAmCamera 1 2 3) rfl rfl⟩

/-- C7: the first `WantHeartbeat` on an open connection (any interval,
including 0) marks the heartbeat as set and leaves the connection open; once
set, any further `WantHeartbeat` in any session state makes the server emit
one Error message and close the connection. -/
theorem second_want_heartbeat_errors (cams : CamerasMap) (s : Session) (i j : Nat)
    (hopen : s.closed = false) :
    (s.hb.is_setted = false →
      ((stepClient cams s (.msg (.wantHeartbeat i))).2.1.hb.is_setted = true
        ∧ (stepClient cams s (.msg (.wantHeartbeat i))).2.1.closed = false))
    ∧ (s.hb.is_setted = true →
      ((stepClient cams s (.msg (.wantHeartbeat j))).2.1.closed = true
        ∧ ∃ r, (stepClient cams s (.msg (.wantHeartbeat j))).2.2 = [.protocolError r])) := by
  obtain ⟨role, hb, closed⟩ := s
  simp only at hopen
  subst hopen
  cases role <;>
    constructor <;> intro hset <;>
      simp_all [stepClient, HeartbeatState.is_setted, HeartbeatState.set_period]

theorem second_want_heartbeat_errors_witness :
    ((⟨.camera 1 2 60, ⟨some 0, none⟩, false⟩ : Session).closed = false
      ∧ (⟨.camera 1 2 60, ⟨some 0, none⟩, false⟩ : Session).hb.is_setted = true)
    ∧ ((stepClient [] ⟨.camera 1 2 60, ⟨some 0, none⟩, false⟩
          (.msg (.wantHeartbeat 25))).2.1.closed = true
      ∧ ∃ r, (stepClient [] ⟨.camera 1 2 60, ⟨some 0, none⟩, false⟩
          (.msg (.wantHeartbeat 25))).2.2 = [.protocolError r]) :=
  ⟨⟨rfl, rfl⟩,
   (second_want_heartbeat_errors [] ⟨.camera 1 2 60, ⟨some 0, none⟩, false⟩ 3 25 rfl).2 rfl⟩

/-- C4: an `IAmCamera` for a road already registered with a different limit is
rejected — the connection receives exactly the `Error` for the limit conflict
and is closed — while the registry map (hence every camera already registered
on that road) is left unchanged. -/
theorem limit_conflict_rejected (cams : CamerasMap) (s : Session)
    (road mile limit l c : Nat)
    (hrole : s.role = .unidentified) (hopen : s.closed = false)
    (hl : lookupRoad cams road = some (l, c)) (hne : l ≠ limit) :
    stepClient cams s (.msg (.iAmCamera road mile limit))
      = (cams, { s with closed := true },
         [.protocolError (.invalidCamera "limit conflict")]) := by
  obtain ⟨role, hb, closed⟩ := s
  simp only at hrole hopen
  subst hrole
  subst hopen
  simp [stepClient, cameraGuardNew, hl, hne]

theorem limit_conflict_rejected_witness :
    (Session.init.role = .unidentified ∧ Session.init.closed = false
      ∧ lookupRoad [(7, 60, 1)] 7 = some (60, 1) ∧ (60 : Nat) ≠ 70)
    ∧ stepClient [(7, 60, 1)] Session.init (.msg (.iAmCamera 7 5 70))
        = ([(7, 60, 1)], { Session.init with closed := true },
           [.protocolError (.invalidCamera "limit conflict")]) :=
  ⟨⟨rfl, rfl, by decide, by decide⟩,
   limit_conflict_rejected [(7, 60, 1)] Session.init 7 5 70 60 1 rfl rfl
     (by decide) (by decide)⟩

/-- C6 (divergence witness): the heartbeat period claimed is `i · 100` ms in
every state, and `handle_camera`/`handle_dispatcher` do compute that, but
`handle_client` multiplies in `u32`, so for `interval = 42949673` (accepted in
the Unidentified state) the period wraps to 4 ms instead of 4294967300 ms. -/
theorem heartbeat_period_wrap_bug :
    handleCameraHeartbeatMs 42949673 = 42949673 * 100
    ∧ handleDispatcherHeartbeatMs 42949673 = 42949673 * 100
    ∧ 42949673 * 100 = 4294967300
    ∧ handleClientHeartbeatMs 42949673 = 4
    ∧ handleClientHeartbeatMs 42949673 ≠ 42949673 * 100
    ∧ (stepClient [] Session.init
        (.msg (.wantHeartbeat 42949673))).2.1.hb.intervalPeriod = some 4 := by
  refine ⟨rfl, rfl, rfl, rfl, by decide, rfl⟩

theorem stepClient_no_heartbeat (cams : CamerasMap) (s : Session) (e : Event)
    (hhb : s.hb.intervalPeriod = none)
    (he : ∀ i, e = .msg (.wantHeartbeat i) → i = 0) :
    (stepClient cams s e).2.1.hb.intervalPeriod = none
    ∧ Output.heartbeat ∉ (stepClient cams s e).2.2 := by
  obtain ⟨role, hb, closed⟩ := s
  simp only at hhb
  cases e with
  | tick =>
    cases closed with
    | true => simp [stepClient, hhb]
    | false =>
      have hv : hb.is_valid = false := by
        simp [HeartbeatState.is_valid, hhb]
      simp [stepClient, hv, hhb]
  | msg m =>
    cases closed with
    | true => simp [stepClient, hhb]
    | false =>
      cases role with
      | unidentified =>
        cases m with
        | wantHeartbeat i =>
          have hi : i = 0 := he i rfl
          subst hi
          by_cases hset : hb.is_setted <;>
            simp [stepClient, hset, HeartbeatState.set_period, handleClientHeartbeatMs, hhb]
        | iAmCamera road mile limit =>
          cases h : cameraGuardNew cams road limit <;> simp [stepClient, h, hhb]
        | _ => simp [stepClient, hhb]
      | camera road mile limit =>
        cases m with
        | wantHeartbeat i =>
          have hi : i = 0 := he i rfl
          subst hi
          by_cases hset : hb.is_setted <;>
            simp [stepClient, hset, HeartbeatState.set_period, handleCameraHeartbeatMs, hhb]
        | _ => simp [stepClient, hhb]
      | dispatcher roads =>
        cases m with
        | wantHeartbeat i =>
          have hi : i = 0 := he i rfl
          subst hi
          by_cases hset : hb.is_setted <;>
            simp [stepClient, hset, HeartbeatState.set_period, handleDispatcherHeartbeatMs, hhb]
        | _ => simp [stepClient, hhb]

/-- C8: a connection that never sends `WantHeartbeat`, or whose only
`WantHeartbeat` messages carry interval 0, never receives a Heartbeat. -/
theorem heartbeat_disabled_at_zero (events : List Event) :
    ∀ (cams : CamerasMap) (s : Session), s.hb.intervalPeriod = none →
      (∀ i, Event.msg (Msg.wantHeartbeat i) ∈ events → i = 0) →
      Output.heartbeat ∉ (runClient cams s events).2.2 := by
  induction events with
  | nil =>
    intro cams s _ _
    simp [runClient]
  | cons e es ih =>
    intro cams s hhb h
    have hstep := stepClient_no_heartbeat cams s e hhb
      (fun i hi => h i (by rw [hi]; exact List.mem_cons_self _ _))
    simp only [runClient, List.mem_append]
    intro hmem
    rcases hmem with hmem | hmem
    · exact hstep.2 hmem
    · exact ih _ _ hstep.1 (fun i hi => h i (List.mem_cons_of_mem _ hi)) hmem

/-- Event trace for the heartbeat-disabled witness: a zero-interval
`WantHeartbeat`, timer ticks, and an identification. -/
def exEvents : List Event :=
  [.msg (.wantHeartbeat 0), .tick, .msg (.iAmDispatcher [5]), .tick]

theorem heartbeat_disabled_at_zero_witness :
    Session.init.hb.intervalPeriod = none
    ∧ (∀ i, Event.msg (Msg.wantHeartbeat i) ∈ exEvents → i = 0)
    ∧ Output.heartbeat ∉ (runClient [] Session.init exEvents).2.2 :=
  ⟨rfl, fun i hi => by simpa [exEvents] using hi,
   heartbeat_disabled_at_zero exEvents [] Session.init rfl
     (fun i hi => by simpa [exEvents] using hi)⟩
